import Mathlib

/-!
Verification development for the `ClientManager` of the vscode-standard-ruby
extension (`clientManager.ts`).

The manager owns four per-root tables keyed by the folder's URI string:
`clients` (folder key → language client), `diagnosticCaches` (folder key →
per-document diagnostics), `watchers` (folder key → disposable handles) and
the `pendingStarts` guard set.  All collaborator calls (`shouldEnableForFolder`,
`createClient`, `client.start`, `client.stop`, `sendNotification`, `onError`)
are asynchronous and may reject; they are modelled as `Except String`-valued
fields of an environment record, and each public operation is a function from
a manager state to a result state together with a chronological trace of the
observable collaborator events and an optional propagated exception.

JavaScript `Map`s are modelled as association lists with JS `Map` semantics:
`set` replaces in place or appends, `delete` removes the key, iteration order
is insertion order.  Cache instances carry an identity tag (`Cache.id`) drawn
from a freshness counter in the state, so that "returns a distinct instance"
is expressible.
-/

set_option autoImplicit false

namespace StandardRuby

/-- A workspace folder: its URI (the folder key) and display name. -/
structure Folder where
  uri : String
  name : String
deriving DecidableEq, Repr

/-- A text document: its URI string and language id. -/
structure Document where
  uri : String
  languageId : String
deriving DecidableEq, Repr

/-- Diagnostics are opaque records; only their lists matter here. -/
abbrev Diag := Nat

/-- A diagnostic cache instance: an identity tag (JS object identity of the
`Map`) plus its entries (document URI → diagnostic list). -/
structure Cache where
  id : Nat
  entries : List (String × List Diag)
deriving DecidableEq, Repr

/-- The folder key, `folder.uri.toString()` — the key used across all per-root tables. -/
def getFolderKey (f : Folder) : String := f.uri

/-- JS `Map.get`. -/
def mapGet {α : Type} : List (String × α) → String → Option α
  | [], _ => none
  | (k', v) :: rest, k => if k' = k then some v else mapGet rest k

/-- JS `Map.set`: replace in place, else append (insertion order preserved). -/
def mapSet {α : Type} : List (String × α) → String → α → List (String × α)
  | [], k, v => [(k, v)]
  | (k', v') :: rest, k, v =>
      if k' = k then (k, v) :: rest else (k', v') :: mapSet rest k v

/-- JS `Map.delete`. -/
def mapDelete {α : Type} (m : List (String × α)) (k : String) : List (String × α) :=
  m.filter (fun p => p.1 ≠ k)

/-- JS `Map.has`. -/
def mapHas {α : Type} (m : List (String × α)) (k : String) : Bool :=
  (mapGet m k).isSome

theorem mapGet_mapSet_self {α : Type} (m : List (String × α)) (k : String) (v : α) :
    mapGet (mapSet m k v) k = some v := by
  induction m with
  | nil => simp [mapSet, mapGet]
  | cons p rest ih =>
      by_cases h : p.1 = k
      · simp [mapSet, mapGet, h]
      · simp [mapSet, mapGet, h, ih]

theorem mapGet_mapSet_ne {α : Type} (m : List (String × α)) (k k' : String) (v : α)
    (h : k' ≠ k) : mapGet (mapSet m k v) k' = mapGet m k' := by
  induction m with
  | nil => simp [mapSet, mapGet, Ne.symm h]
  | cons p rest ih =>
      by_cases hp : p.1 = k
      · subst hp
        simp [mapSet, mapGet, Ne.symm h]
      · simp only [mapSet, if_neg hp]
        by_cases hp' : p.1 = k'
        · simp [mapGet, hp']
        · simp [mapGet, hp', ih]

theorem mapGet_mapDelete_self {α : Type} (m : List (String × α)) (k : String) :
    mapGet (mapDelete m k) k = none := by
  induction m with
  | nil => simp [mapDelete, mapGet]
  | cons p rest ih =>
      by_cases h : p.1 = k
      · simpa [mapDelete, h] using ih
      · simpa [mapDelete, mapGet, h] using ih

theorem mapGet_mapDelete_ne {α : Type} (m : List (String × α)) (k k' : String)
    (h : k' ≠ k) : mapGet (mapDelete m k) k' = mapGet m k' := by
  induction m with
  | nil => simp [mapDelete, mapGet]
  | cons p rest ih =>
      by_cases hp : p.1 = k
      · subst hp
        simpa [mapDelete, mapGet, List.filter_cons, Ne.symm h] using ih
      · by_cases hp' : p.1 = k'
        · simp [mapDelete, mapGet, List.filter_cons, hp, hp', h]
        · simpa [mapDelete, mapGet, List.filter_cons, hp, hp'] using ih

theorem mapDelete_absent {α : Type} (m : List (String × α)) (k : String)
    (h : mapGet m k = none) : mapDelete m k = m := by
  induction m with
  | nil => simp [mapDelete]
  | cons p rest ih =>
      by_cases hp : p.1 = k
      · simp [mapGet, hp] at h
      · simp only [mapGet, if_neg hp] at h
        simpa [mapDelete, hp] using ih h

theorem mapDelete_mapSet_absent {α : Type} (m : List (String × α)) (k : String) (v : α)
    (h : mapGet m k = none) : mapDelete (mapSet m k v) k = m := by
  induction m with
  | nil => simp [mapSet, mapDelete]
  | cons p rest ih =>
      by_cases hp : p.1 = k
      · simp [mapGet, hp] at h
      · simp only [mapGet, if_neg hp] at h
        simpa [mapSet, mapDelete, hp] using ih h

/-- The `ClientManager`'s private mutable state: the four per-root tables plus
the freshness counter for cache identities.  Clients are opaque handles
identified by `Nat`, watcher disposables likewise. -/
structure ManagerState where
  clients : List (String × Nat)
  diagnosticCaches : List (String × Cache)
  watchers : List (String × List Nat)
  pendingStarts : List String
  nextCacheId : Nat
deriving DecidableEq, Repr

/-- Observable collaborator events, in chronological order. -/
inductive Event where
  | log (msg : String)
  | enableCheck (folderUri : String)
  | factoryCall (folderUri : String)
  | startCall (client : Nat)
  | stopCall (client : Nat)
  | openNotify (client : Nat) (docUri : String)
  | disposed (watcher : Nat)
  | errCallback (msg : String) (folderUri : String)
  | statusUpdate
deriving DecidableEq, Repr

/-- The injected collaborators (`ClientManagerOptions`) together with the
workspace environment (`workspace.textDocuments`, `workspace.getWorkspaceFolder`)
and the behaviour of each client handle (`start`/`stop`/`sendNotification`).
Async collaborators are `Except String`-valued: `.error e` models a rejected
promise. -/
structure Env where
  shouldEnableForFolder : Folder → Except String Bool
  createClient : Folder → Except String (Option Nat)
  clientStart : Nat → Except String Unit
  clientStop : Nat → Except String Unit
  sendNotification : Nat → String → Except String Unit
  onErrorCb : String → Folder → Except String Unit
  textDocuments : List Document
  getWorkspaceFolder : String → Option Folder
  supportedLanguage : String → Bool

/-- The result of one public operation: the state after it settles, the trace
of collaborator events it produced, and the exception it propagated to its
caller (`none` when the returned promise resolves). -/
structure OpResult where
  state : ManagerState
  trace : List Event
  err : Option String
deriving DecidableEq, Repr

/-- Model of `getDiagnosticCacheForFolder`: return the existing cache for the key or
lazily create, store and return an empty one. -/
def getDiagnosticCacheForFolder (s : ManagerState) (f : Folder) : Cache × ManagerState :=
  let key := getFolderKey f
  match mapGet s.diagnosticCaches key with
  | some c => (c, s)
  | none =>
      let c : Cache := ⟨s.nextCacheId, []⟩
      (c, { s with diagnosticCaches := mapSet s.diagnosticCaches key c,
                   nextCacheId := s.nextCacheId + 1 })

/-- Model of `registerWatchers`: replace the WatcherSet stored for the key.  The method
makes no collaborator calls, so its trace is empty. -/
def registerWatchers (s : ManagerState) (f : Folder) (ws : List Nat) :
    ManagerState × List Event :=
  ({ s with watchers := mapSet s.watchers (getFolderKey f) ws }, [])

/-- Model of the private `cleanupWatchers`: dispose every stored disposable for the key
and remove the entry; no-op when nothing is stored. -/
def cleanupWatchers (s : ManagerState) (key : String) : ManagerState × List Event :=
  match mapGet s.watchers key with
  | none => (s, [])
  | some ws =>
      ({ s with watchers := mapDelete s.watchers key }, ws.map Event.disposed)

/-- Model of the private `cleanupAllWatchers`: dispose every disposable of every key and
delete each entry while iterating; the table ends empty. -/
def cleanupAllWatchers (s : ManagerState) : ManagerState × List Event :=
  ({ s with watchers := [] },
   (s.watchers.map (fun kw => kw.2.map Event.disposed)).flatten)

/-- The filter `syncOpenDocuments` applies to each visible document: supported
language and owning folder whose key matches. -/
def syncDocMatches (env : Env) (key : String) (d : Document) : Bool :=
  env.supportedLanguage d.languageId &&
    match env.getWorkspaceFolder d.uri with
    | some df => getFolderKey df = key
    | none => false

/-- The loop body of `syncOpenDocuments`: walk the visible documents, sending
an open notification for each match; a rejected send aborts the walk and
propagates. -/
def syncOpenDocumentsLoop (env : Env) (c : Nat) (key : String) :
    List Document → List Event × Option String
  | [] => ([], none)
  | d :: rest =>
      if syncDocMatches env key d then
        match env.sendNotification c d.uri with
        | .error e => ([Event.openNotify c d.uri], some e)
        | .ok _ =>
            let (tr, e) := syncOpenDocumentsLoop env c key rest
            (Event.openNotify c d.uri :: tr, e)
      else syncOpenDocumentsLoop env c key rest

/-- Model of the private `afterStart`: replace the key's DiagnosticCache with a fresh
empty instance, replay open notifications for this folder's visible documents,
then fire the status-refresh callback. -/
def afterStart (env : Env) (c : Nat) (f : Folder) (s : ManagerState) :
    ManagerState × List Event × Option String :=
  let key := getFolderKey f
  let s1 := { s with
    diagnosticCaches := mapSet s.diagnosticCaches key ⟨s.nextCacheId, []⟩,
    nextCacheId := s.nextCacheId + 1 }
  match syncOpenDocumentsLoop env c key env.textDocuments with
  | (tr, some e) => (s1, tr, some e)
  | (tr, none) => (s1, tr ++ [Event.statusUpdate], none)

/-- Registration step of `startForFolder`: `this.clients.set(key, client)`. -/
def registerClient (s : ManagerState) (key : String) (c : Nat) : ManagerState :=
  { s with clients := mapSet s.clients key c }

/-- The tail of `startForFolder`'s `try` block once the factory has produced a
client: the client is already registered in the state this receives; it issues
the start handshake and, on success, runs `afterStart` and logs. -/
def startHandshakePhase (env : Env) (f : Folder) (c : Nat) (s2 : ManagerState) :
    ManagerState × List Event × Option String :=
  match env.clientStart c with
  | .error e => (s2, [Event.startCall c], some e)
  | .ok _ =>
      match afterStart env c f s2 with
      | (s3, tr, some e) => (s3, Event.startCall c :: tr, some e)
      | (s3, tr, none) =>
          (s3, Event.startCall c :: tr ++
            [Event.log ("Language server started for \"" ++ f.name ++ "\"")], none)

/-- The `try` block of `startForFolder`, entered with the key already in the
guard set: enablement check, factory call, registration, handshake,
`afterStart`.  Returns the state at the point the block exits, the events so
far, and the thrown exception if any. -/
def startTryBody (env : Env) (f : Folder) (s : ManagerState) :
    ManagerState × List Event × Option String :=
  let key := getFolderKey f
  match env.shouldEnableForFolder f with
  | .error e => (s, [Event.enableCheck key], some e)
  | .ok false =>
      (s, [Event.enableCheck key,
           Event.log ("Skipping workspace folder \"" ++ f.name ++
             "\" - extension disabled or not applicable")], none)
  | .ok true =>
      match env.createClient f with
      | .error e => (s, [Event.enableCheck key, Event.factoryCall key], some e)
      | .ok none => (s, [Event.enableCheck key, Event.factoryCall key], none)
      | .ok (some c) =>
          match startHandshakePhase env f c (registerClient s key c) with
          | (s', tr, r) => (s', Event.enableCheck key :: Event.factoryCall key :: tr, r)

/-- Synchronous guard step of `startForFolder`: `this.pendingStarts.add(key)`,
performed before the first suspension point. -/
def startGuardState (s : ManagerState) (key : String) : ManagerState :=
  { s with pendingStarts := key :: s.pendingStarts }

/-- The `catch`/`finally` wrapper of `startForFolder`, applied to the outcome
of the `try` block.  On failure: delete the registration, dispose and remove
the WatcherSet, log, invoke the error callback.  Always: remove the key from
the guard set. -/
def startSettle (env : Env) (f : Folder) (key : String)
    (r : ManagerState × List Event × Option String) : OpResult :=
  match r with
  | (s', tr, none) =>
      ⟨{ s' with pendingStarts := s'.pendingStarts.erase key }, tr, none⟩
  | (s', tr, some e) =>
      let s2 := { s' with clients := mapDelete s'.clients key }
      let (s3, dtr) := cleanupWatchers s2 key
      let failMsg := "Failed to start language server for \"" ++ f.name ++ "\": " ++ e
      let cbMsg := "Failed to start Standard Ruby Language Server for \"" ++ f.name ++ "\""
      let s4 := { s3 with pendingStarts := s3.pendingStarts.erase key }
      match env.onErrorCb cbMsg f with
      | .ok _ =>
          ⟨s4, tr ++ dtr ++ [Event.log failMsg, Event.errCallback cbMsg key], none⟩
      | .error e2 =>
          ⟨s4, tr ++ dtr ++ [Event.log failMsg, Event.errCallback cbMsg key], some e2⟩

/-- Model of `startForFolder`: idempotence check, single-flight guard check, synchronous
guard add, then the guarded attempt with its catch/finally handling. -/
def startForFolder (env : Env) (f : Folder) (s : ManagerState) : OpResult :=
  let key := getFolderKey f
  if mapHas s.clients key then ⟨s, [], none⟩
  else if key ∈ s.pendingStarts then ⟨s, [], none⟩
  else startSettle env f key (startTryBody env f (startGuardState s key))

/-- Model of `stopForFolder`: no-op when the key has no registered client; otherwise
log, issue the stop handshake, and (only if it resolves) remove the
registration, delete the cache, and dispose/remove the watchers. -/
def stopForFolder (env : Env) (f : Folder) (s : ManagerState) : OpResult :=
  let key := getFolderKey f
  match mapGet s.clients key with
  | none => ⟨s, [], none⟩
  | some c =>
      let logEv := Event.log ("Stopping language server for \"" ++ f.name ++ "\"...")
      match env.clientStop c with
      | .error e => ⟨s, [logEv, Event.stopCall c], some e⟩
      | .ok _ =>
          let s1 := { s with clients := mapDelete s.clients key,
                             diagnosticCaches := mapDelete s.diagnosticCaches key }
          let (s2, dtr) := cleanupWatchers s1 key
          ⟨s2, [logEv, Event.stopCall c] ++ dtr, none⟩

/-- The `for (const [key, client] of this.clients)` loop of `stopAll`:
`entries` is the sequence of entries the iterator yields (the table's contents
at loop entry — deleting the entry currently visited never unseats a later
one), and the live map in the state is updated as the loop deletes.  A
rejected stop aborts the loop and propagates. -/
def stopAllLoop (env : Env) : List (String × Nat) → ManagerState →
    ManagerState × List Event × Option String
  | [], s => (s, [], none)
  | (k, c) :: rest, s =>
      match env.clientStop c with
      | .error e => (s, [Event.stopCall c], some e)
      | .ok _ =>
          let s1 := { s with clients := mapDelete s.clients k }
          match stopAllLoop env rest s1 with
          | (s2, tr, r) => (s2, Event.stopCall c :: tr, r)

/-- Model of `stopAll`: log, stop and deregister every client; then (only if no stop
rejected) clear all diagnostic caches and dispose all watchers. -/
def stopAll (env : Env) (s : ManagerState) : OpResult :=
  let logEv := Event.log "Stopping all language servers..."
  match stopAllLoop env s.clients s with
  | (s1, tr, some e) => ⟨s1, logEv :: tr, some e⟩
  | (s1, tr, none) =>
      let s2 := { s1 with diagnosticCaches := [] }
      let (s3, dtr) := cleanupAllWatchers s2
      ⟨s3, logEv :: tr ++ dtr, none⟩

/-- Model of `notifyDocumentOpenIfNeeded`: guard on supported language, tracked folder
and registered client, then send one open notification iff the document's URI
is not a key of the folder's diagnostic cache. -/
def notifyDocumentOpenIfNeeded (env : Env) (d : Document) (s : ManagerState) : OpResult :=
  if env.supportedLanguage d.languageId then
    match env.getWorkspaceFolder d.uri with
    | none => ⟨s, [], none⟩
    | some f =>
        match mapGet s.clients (getFolderKey f) with
        | none => ⟨s, [], none⟩
        | some c =>
            let (cache, s1) := getDiagnosticCacheForFolder s f
            if (mapGet cache.entries d.uri).isSome then ⟨s1, [], none⟩
            else
              match env.sendNotification c d.uri with
              | .ok _ => ⟨s1, [Event.openNotify c d.uri], none⟩
              | .error e => ⟨s1, [Event.openNotify c d.uri], some e⟩
  else ⟨s, [], none⟩

/-! ### Event classifiers -/

/-- Is this event a Connection-Factory invocation? -/
def isFactoryCall : Event → Bool
  | .factoryCall _ => true
  | _ => false

/-- Is this event an error-callback invocation? -/
def isErrCallback : Event → Bool
  | .errCallback _ _ => true
  | _ => false

/-- Is this event a stop-handshake issuance? -/
def isStopCall : Event → Bool
  | .stopCall _ => true
  | _ => false

/-! ### Structural lemmas about the start path -/

/-- The state `afterStart` leaves behind: only the key's cache slot and the
freshness counter change, in both the resolving and the rejecting branch. -/
theorem afterStart_state (env : Env) (c : Nat) (f : Folder) (s : ManagerState) :
    (afterStart env c f s).1 =
      ⟨s.clients,
       mapSet s.diagnosticCaches (getFolderKey f) ⟨s.nextCacheId, []⟩,
       s.watchers, s.pendingStarts, s.nextCacheId + 1⟩ := by
  simp only [afterStart]
  split <;> rfl

/-- The state the handshake phase leaves behind is the input state, possibly
with the key's cache slot replaced and the freshness counter bumped. -/
theorem startHandshakePhase_state (env : Env) (f : Folder) (c : Nat) (s2 : ManagerState) :
    (startHandshakePhase env f c s2).1 = s2 ∨
    (startHandshakePhase env f c s2).1 =
      ⟨s2.clients,
       mapSet s2.diagnosticCaches (getFolderKey f) ⟨s2.nextCacheId, []⟩,
       s2.watchers, s2.pendingStarts, s2.nextCacheId + 1⟩ := by
  simp only [startHandshakePhase]
  split
  · left; rfl
  · right
    split
    next s3 tr e heq =>
      have h3 := afterStart_state env c f s2
      rw [heq] at h3
      simpa using h3
    next s3 tr heq =>
      have h3 := afterStart_state env c f s2
      rw [heq] at h3
      simpa using h3

/-- The state the try block leaves behind: unchanged, or with the client
registered, or with the client registered and the cache slot refreshed. -/
theorem startTryBody_state (env : Env) (f : Folder) (s : ManagerState) :
    (startTryBody env f s).1 = s ∨
    (∃ c, (startTryBody env f s).1 =
      ⟨mapSet s.clients (getFolderKey f) c, s.diagnosticCaches,
       s.watchers, s.pendingStarts, s.nextCacheId⟩) ∨
    (∃ c, (startTryBody env f s).1 =
      ⟨mapSet s.clients (getFolderKey f) c,
       mapSet s.diagnosticCaches (getFolderKey f) ⟨s.nextCacheId, []⟩,
       s.watchers, s.pendingStarts, s.nextCacheId + 1⟩) := by
  rcases hen : env.shouldEnableForFolder f with e | b
  · left; simp [startTryBody, hen]
  · rcases b with _ | _
    · left; simp [startTryBody, hen]
    · rcases hcr : env.createClient f with e | oc
      · left; simp [startTryBody, hen, hcr]
      · rcases oc with _ | c
        · left; simp [startTryBody, hen, hcr]
        · rcases hph : startHandshakePhase env f c (registerClient s (getFolderKey f) c)
            with ⟨s', tr, r⟩
          have hs := startHandshakePhase_state env f c (registerClient s (getFolderKey f) c)
          rw [hph] at hs
          rcases hs with h | h
          · right; left
            refine ⟨c, ?_⟩
            simp only [startTryBody, hen, hcr, hph]
            simpa [registerClient] using h
          · right; right
            refine ⟨c, ?_⟩
            simp only [startTryBody, hen, hcr, hph]
            simpa [registerClient] using h

theorem startTryBody_pendingStarts (env : Env) (f : Folder) (s : ManagerState) :
    (startTryBody env f s).1.pendingStarts = s.pendingStarts := by
  rcases startTryBody_state env f s with h | ⟨c, h⟩ | ⟨c, h⟩ <;> rw [h]

theorem startTryBody_watchers (env : Env) (f : Folder) (s : ManagerState) :
    (startTryBody env f s).1.watchers = s.watchers := by
  rcases startTryBody_state env f s with h | ⟨c, h⟩ | ⟨c, h⟩ <;> rw [h]

theorem startTryBody_clients (env : Env) (f : Folder) (s : ManagerState) :
    (startTryBody env f s).1.clients = s.clients ∨
    ∃ c, (startTryBody env f s).1.clients = mapSet s.clients (getFolderKey f) c := by
  rcases startTryBody_state env f s with h | ⟨c, h⟩ | ⟨c, h⟩ <;> rw [h]
  · left; rfl
  · right; exact ⟨c, rfl⟩
  · right; exact ⟨c, rfl⟩

theorem startTryBody_caches_ne (env : Env) (f : Folder) (s : ManagerState)
    (k' : String) (h : k' ≠ getFolderKey f) :
    mapGet (startTryBody env f s).1.diagnosticCaches k' = mapGet s.diagnosticCaches k' := by
  rcases startTryBody_state env f s with hb | ⟨c, hb⟩ | ⟨c, hb⟩ <;> rw [hb]
  exact mapGet_mapSet_ne _ _ _ _ h

/-- Every event the document-sync loop emits is an open notification. -/
theorem syncOpenDocumentsLoop_events (env : Env) (c : Nat) (key : String)
    (docs : List Document) :
    ∀ ev ∈ (syncOpenDocumentsLoop env c key docs).1, ∃ u, ev = Event.openNotify c u := by
  induction docs with
  | nil => simp [syncOpenDocumentsLoop]
  | cons d rest ih =>
      by_cases hm : syncDocMatches env key d
      · rcases hs : env.sendNotification c d.uri with e | u
        · simp [syncOpenDocumentsLoop, hm, hs]
        · rcases hr : syncOpenDocumentsLoop env c key rest with ⟨tr, e⟩
          intro ev hev
          simp [syncOpenDocumentsLoop, hm, hs, hr] at hev
          rcases hev with h | h
          · exact ⟨d.uri, h⟩
          · have := ih ev
            rw [hr] at this
            exact this h
      · intro ev hev
        simp only [syncOpenDocumentsLoop, hm, if_neg] at hev
        exact ih ev (by simpa [hm] using hev)

/-- When the document-sync loop resolves, its trace is exactly one open
notification per matching visible document, in order. -/
theorem syncOpenDocumentsLoop_ok (env : Env) (c : Nat) (key : String)
    (docs : List Document) (h : (syncOpenDocumentsLoop env c key docs).2 = none) :
    (syncOpenDocumentsLoop env c key docs).1 =
      (docs.filter (syncDocMatches env key)).map (fun d => Event.openNotify c d.uri) := by
  induction docs with
  | nil => simp [syncOpenDocumentsLoop]
  | cons d rest ih =>
      by_cases hm : syncDocMatches env key d
      · rcases hs : env.sendNotification c d.uri with e | u
        · simp [syncOpenDocumentsLoop, hm, hs] at h
        · rcases hr : syncOpenDocumentsLoop env c key rest with ⟨tr, e⟩
          simp only [syncOpenDocumentsLoop, hm, if_pos, hs, hr] at h ⊢
          have : tr = (rest.filter (syncDocMatches env key)).map
              (fun d => Event.openNotify c d.uri) := by
            have := ih (by rw [hr]; exact h)
            rw [hr] at this
            exact this
          simp [List.filter_cons, hm, this]
      · simp only [syncOpenDocumentsLoop, hm, if_neg] at h ⊢
        have := ih (by simpa [hm] using h)
        simpa [List.filter_cons, hm] using this

/-- Every event `afterStart` emits is an open notification or the status
refresh. -/
theorem afterStart_events (env : Env) (c : Nat) (f : Folder) (s : ManagerState) :
    ∀ ev ∈ (afterStart env c f s).2.1,
      (∃ u, ev = Event.openNotify c u) ∨ ev = Event.statusUpdate := by
  rcases hl : syncOpenDocumentsLoop env c (getFolderKey f) env.textDocuments with ⟨ltr, le⟩
  have hop : ∀ e2 ∈ ltr, ∃ u, e2 = Event.openNotify c u := by
    intro e2 he2
    have := syncOpenDocumentsLoop_events env c (getFolderKey f) env.textDocuments e2
    rw [hl] at this
    exact this he2
  rcases le with _ | e
  · intro ev hev
    simp [afterStart, hl] at hev
    rcases hev with h | h
    · exact Or.inl (hop ev h)
    · exact Or.inr h
  · intro ev hev
    simp [afterStart, hl] at hev
    exact Or.inl (hop ev hev)

/-- The handshake phase emits only the start-handshake event, open
notifications, the status refresh and log lines. -/
theorem startHandshakePhase_events (env : Env) (f : Folder) (c : Nat) (s2 : ManagerState) :
    ∀ ev ∈ (startHandshakePhase env f c s2).2.1,
      isErrCallback ev = false ∧ isStopCall ev = false ∧ isFactoryCall ev = false := by
  rcases hst : env.clientStart c with e | u
  · intro ev hev
    simp [startHandshakePhase, hst] at hev
    simp [hev, isErrCallback, isStopCall, isFactoryCall]
  · rcases hA : afterStart env c f s2 with ⟨s3, tr3, r3⟩
    have hAe : ∀ ev ∈ tr3, (∃ u, ev = Event.openNotify c u) ∨ ev = Event.statusUpdate := by
      intro ev hev
      have := afterStart_events env c f s2 ev
      rw [hA] at this
      exact this hev
    have hcl : ∀ ev, ((∃ u, ev = Event.openNotify c u) ∨ ev = Event.statusUpdate) →
        isErrCallback ev = false ∧ isStopCall ev = false ∧ isFactoryCall ev = false := by
      rintro ev (⟨u, rfl⟩ | rfl) <;> simp [isErrCallback, isStopCall, isFactoryCall]
    rcases r3 with _ | e3 <;> intro ev hev <;>
      simp [startHandshakePhase, hst, hA] at hev
    · rcases hev with h | h | h
      · simp [h, isErrCallback, isStopCall, isFactoryCall]
      · exact hcl ev (hAe ev h)
      · simp [h, isErrCallback, isStopCall, isFactoryCall]
    · rcases hev with h | h
      · simp [h, isErrCallback, isStopCall, isFactoryCall]
      · exact hcl ev (hAe ev h)

/-- The try block never invokes the error callback and never issues a stop
handshake. -/
theorem startTryBody_event_classes (env : Env) (f : Folder) (s : ManagerState) :
    ∀ ev ∈ (startTryBody env f s).2.1, isErrCallback ev = false ∧ isStopCall ev = false := by
  rcases hen : env.shouldEnableForFolder f with e | b
  · intro ev hev
    simp [startTryBody, hen] at hev
    simp [hev, isErrCallback, isStopCall]
  · rcases b with _ | _
    · intro ev hev
      simp [startTryBody, hen] at hev
      rcases hev with h | h <;> simp [h, isErrCallback, isStopCall]
    · rcases hcr : env.createClient f with e | oc
      · intro ev hev
        simp [startTryBody, hen, hcr] at hev
        rcases hev with h | h <;> simp [h, isErrCallback, isStopCall]
      · rcases oc with _ | c
        · intro ev hev
          simp [startTryBody, hen, hcr] at hev
          rcases hev with h | h <;> simp [h, isErrCallback, isStopCall]
        · rcases hph : startHandshakePhase env f c (registerClient s (getFolderKey f) c)
            with ⟨s', tr, r⟩
          have hphe : ∀ ev ∈ tr,
              isErrCallback ev = false ∧ isStopCall ev = false ∧ isFactoryCall ev = false := by
            intro ev hev
            have := startHandshakePhase_events env f c (registerClient s (getFolderKey f) c) ev
            rw [hph] at this
            exact this hev
          intro ev hev
          simp [startTryBody, hen, hcr, hph] at hev
          rcases hev with h | h | h
          · simp [h, isErrCallback, isStopCall]
          · simp [h, isErrCallback, isStopCall]
          · exact ⟨(hphe ev h).1, (hphe ev h).2.1⟩

/-- The try block never invokes the error callback (count form). -/
theorem startTryBody_no_errCallback (env : Env) (f : Folder) (s : ManagerState) :
    (startTryBody env f s).2.1.countP isErrCallback = 0 := by
  rw [List.countP_eq_zero]
  intro ev hev
  simp [(startTryBody_event_classes env f s ev hev).1]

/-! ### `startForFolder`-level lemmas -/

/-- The disposal events produced for a key, as a function of the state. -/
def disposalTrace (s : ManagerState) (key : String) : List Event :=
  match mapGet s.watchers key with
  | none => []
  | some ws => ws.map Event.disposed

theorem cleanupWatchers_state (s : ManagerState) (key : String) :
    (cleanupWatchers s key).1 = { s with watchers := mapDelete s.watchers key } := by
  rcases hw : mapGet s.watchers key with _ | ws
  · simp [cleanupWatchers, hw, mapDelete_absent _ _ hw]
  · simp [cleanupWatchers, hw]

theorem cleanupWatchers_trace (s : ManagerState) (key : String) :
    (cleanupWatchers s key).2 = disposalTrace s key := by
  rcases hw : mapGet s.watchers key with _ | ws <;> simp [cleanupWatchers, disposalTrace, hw]

theorem cleanupWatchers_absent (s : ManagerState) (key : String)
    (hw : mapGet s.watchers key = none) : cleanupWatchers s key = (s, []) := by
  simp [cleanupWatchers, hw]

theorem cleanupWatchers_present (s : ManagerState) (key : String) (ws : List Nat)
    (hw : mapGet s.watchers key = some ws) :
    cleanupWatchers s key = ({ s with watchers := mapDelete s.watchers key }, ws.map Event.disposed) := by
  simp [cleanupWatchers, hw]

/-- Second call once a Connection is registered: immediate no-op. -/
theorem startForFolder_registered (env : Env) (f : Folder) (s : ManagerState)
    (h : mapHas s.clients (getFolderKey f) = true) :
    startForFolder env f s = ⟨s, [], none⟩ := by
  simp [startForFolder, h]

/-- Second call while an attempt is in flight (key in the guard set):
immediate no-op with no collaborator event and no state change. -/
theorem startForFolder_inflight (env : Env) (f : Folder) (s : ManagerState)
    (h : getFolderKey f ∈ s.pendingStarts) :
    startForFolder env f s = ⟨s, [], none⟩ := by
  by_cases hc : mapHas s.clients (getFolderKey f)
  · simp [startForFolder, hc]
  · simp [startForFolder, hc, h]

/-- When neither early return fires, `startForFolder` is the settled guarded
attempt on the synchronously-guarded state. -/
theorem startForFolder_run (env : Env) (f : Folder) (s : ManagerState)
    (hkc : mapHas s.clients (getFolderKey f) = false)
    (hkp : getFolderKey f ∉ s.pendingStarts) :
    startForFolder env f s =
      startSettle env f (getFolderKey f)
        (startTryBody env f (startGuardState s (getFolderKey f))) := by
  simp [startForFolder, hkc, hkp]

/-- State after the failure path of the catch/finally wrapper: the key's
registration and WatcherSet are removed, everything else is as the try block
left it. -/
theorem startSettle_fail_state (env : Env) (f : Folder) (key : String)
    (s' : ManagerState) (tr : List Event) (e : String) :
    (startSettle env f key (s', tr, some e)).state =
      ⟨mapDelete s'.clients key, s'.diagnosticCaches, mapDelete s'.watchers key,
       s'.pendingStarts.erase key, s'.nextCacheId⟩ := by
  simp only [startSettle]
  rcases hcw : cleanupWatchers { s' with clients := mapDelete s'.clients key } key
    with ⟨s3, dtr⟩
  have h3 := cleanupWatchers_state { s' with clients := mapDelete s'.clients key } key
  rw [hcw] at h3
  have h3' : s3 = ⟨mapDelete s'.clients key, s'.diagnosticCaches,
      mapDelete s'.watchers key, s'.pendingStarts, s'.nextCacheId⟩ := h3
  subst h3'
  rcases env.onErrorCb ("Failed to start Standard Ruby Language Server for \"" ++
      f.name ++ "\"") f with e2 | u <;> simp [hcw]

/-- Trace of the failure path: the try block's events, then the disposals,
then the failure log line and the error callback. -/
theorem startSettle_fail_trace (env : Env) (f : Folder) (key : String)
    (s' : ManagerState) (tr : List Event) (e : String) :
    (startSettle env f key (s', tr, some e)).trace =
      tr ++ disposalTrace s' key ++
        [Event.log ("Failed to start language server for \"" ++ f.name ++ "\": " ++ e),
         Event.errCallback
           ("Failed to start Standard Ruby Language Server for \"" ++ f.name ++ "\"") key] := by
  simp only [startSettle]
  rcases hcw : cleanupWatchers { s' with clients := mapDelete s'.clients key } key
    with ⟨s3, dtr⟩
  have h2 := cleanupWatchers_trace { s' with clients := mapDelete s'.clients key } key
  rw [hcw] at h2
  have h2' : dtr = disposalTrace s' key := h2
  subst h2'
  rcases env.onErrorCb ("Failed to start Standard Ruby Language Server for \"" ++
      f.name ++ "\"") f with e2 | u <;> simp [hcw]

/-- The failure path resolves (does not reject) when the error callback
resolves. -/
theorem startSettle_fail_err (env : Env) (f : Folder) (key : String)
    (s' : ManagerState) (tr : List Event) (e : String)
    (hcb : env.onErrorCb
      ("Failed to start Standard Ruby Language Server for \"" ++ f.name ++ "\"") f = .ok ()) :
    (startSettle env f key (s', tr, some e)).err = none := by
  simp only [startSettle]
  rcases hcw : cleanupWatchers { s' with clients := mapDelete s'.clients key } key
    with ⟨s3, dtr⟩
  simp [hcw, hcb]

/-- The fully successful run of `startForFolder`: enabled, factory produces a
client, handshake resolves, every replayed open notification resolves. -/
theorem startForFolder_success (env : Env) (f : Folder) (s : ManagerState) (c : Nat)
    (hkc : mapHas s.clients (getFolderKey f) = false)
    (hkp : getFolderKey f ∉ s.pendingStarts)
    (hEn : env.shouldEnableForFolder f = .ok true)
    (hCr : env.createClient f = .ok (some c))
    (hSt : env.clientStart c = .ok ())
    (hSync : (syncOpenDocumentsLoop env c (getFolderKey f) env.textDocuments).2 = none) :
    startForFolder env f s =
      ⟨⟨mapSet s.clients (getFolderKey f) c,
        mapSet s.diagnosticCaches (getFolderKey f) ⟨s.nextCacheId, []⟩,
        s.watchers, s.pendingStarts, s.nextCacheId + 1⟩,
       Event.enableCheck (getFolderKey f) :: Event.factoryCall (getFolderKey f) ::
         Event.startCall c ::
         ((env.textDocuments.filter (syncDocMatches env (getFolderKey f))).map
             (fun d => Event.openNotify c d.uri) ++
          [Event.statusUpdate,
           Event.log ("Language server started for \"" ++ f.name ++ "\"")]),
       none⟩ := by
  have hlt := syncOpenDocumentsLoop_ok env c (getFolderKey f) env.textDocuments hSync
  rcases hl : syncOpenDocumentsLoop env c (getFolderKey f) env.textDocuments with ⟨ltr, le⟩
  rw [hl] at hlt hSync
  simp only at hSync
  subst hSync
  have hlt' : ltr = (env.textDocuments.filter (syncDocMatches env (getFolderKey f))).map
      (fun d => Event.openNotify c d.uri) := hlt
  subst hlt'
  rw [startForFolder_run env f s hkc hkp]
  simp [startSettle, startTryBody, startGuardState, startHandshakePhase, afterStart,
    registerClient, hEn, hCr, hSt, hl, hlt, List.erase_cons_head]

/-! ### `stopForFolder` / `stopAll` lemmas -/

theorem stopForFolder_absent (env : Env) (f : Folder) (s : ManagerState)
    (h : mapGet s.clients (getFolderKey f) = none) :
    stopForFolder env f s = ⟨s, [], none⟩ := by
  simp [stopForFolder, h]

theorem stopForFolder_stopFail (env : Env) (f : Folder) (s : ManagerState)
    (c : Nat) (e : String)
    (hc : mapGet s.clients (getFolderKey f) = some c)
    (hstop : env.clientStop c = .error e) :
    stopForFolder env f s =
      ⟨s, [Event.log ("Stopping language server for \"" ++ f.name ++ "\"..."),
           Event.stopCall c], some e⟩ := by
  simp [stopForFolder, hc, hstop]

theorem stopForFolder_ok (env : Env) (f : Folder) (s : ManagerState) (c : Nat)
    (hc : mapGet s.clients (getFolderKey f) = some c)
    (hstop : env.clientStop c = .ok ()) :
    stopForFolder env f s =
      ⟨⟨mapDelete s.clients (getFolderKey f),
        mapDelete s.diagnosticCaches (getFolderKey f),
        mapDelete s.watchers (getFolderKey f),
        s.pendingStarts, s.nextCacheId⟩,
       [Event.log ("Stopping language server for \"" ++ f.name ++ "\"..."),
        Event.stopCall c] ++ disposalTrace s (getFolderKey f), none⟩ := by
  simp only [stopForFolder, hc, hstop]
  rcases hcw : cleanupWatchers
      { s with clients := mapDelete s.clients (getFolderKey f),
               diagnosticCaches := mapDelete s.diagnosticCaches (getFolderKey f) }
      (getFolderKey f) with ⟨s2, dtr⟩
  have h1 := cleanupWatchers_state
    { s with clients := mapDelete s.clients (getFolderKey f),
             diagnosticCaches := mapDelete s.diagnosticCaches (getFolderKey f) }
    (getFolderKey f)
  have h2 := cleanupWatchers_trace
    { s with clients := mapDelete s.clients (getFolderKey f),
             diagnosticCaches := mapDelete s.diagnosticCaches (getFolderKey f) }
    (getFolderKey f)
  rw [hcw] at h1 h2
  have h1' : s2 = ⟨mapDelete s.clients (getFolderKey f),
      mapDelete s.diagnosticCaches (getFolderKey f),
      mapDelete s.watchers (getFolderKey f), s.pendingStarts, s.nextCacheId⟩ := h1
  have h2' : dtr = disposalTrace s (getFolderKey f) := h2
  subst h1'
  subst h2'
  simp [hcw]

/-- When every stop handshake in the visited entry list resolves, the loop
stops each entry once, in order, and deletes each key from the live table. -/
theorem stopAllLoop_ok (env : Env) (entries : List (String × Nat)) :
    ∀ s : ManagerState, (∀ p ∈ entries, env.clientStop p.2 = .ok ()) →
    stopAllLoop env entries s =
      ({ s with clients := entries.foldl (fun m p => mapDelete m p.1) s.clients },
       entries.map (fun p => Event.stopCall p.2), none) := by
  induction entries with
  | nil => intro s _; simp [stopAllLoop]
  | cons p rest ih =>
      intro s h
      have hp : env.clientStop p.2 = .ok () := h p (by simp)
      have hrest : ∀ q ∈ rest, env.clientStop q.2 = .ok () :=
        fun q hq => h q (by simp [hq])
      rcases p with ⟨k, c⟩
      simp only [stopAllLoop, hp]
      rw [ih _ hrest]
      simp

/-- When the stop handshake of entry `(k, c)` rejects after a prefix of
resolving stops, the loop aborts there: the prefix was deleted, the failing
and remaining entries were not, and the exception propagates. -/
theorem stopAllLoop_abort (env : Env) (done : List (String × Nat)) :
    ∀ (s : ManagerState) (k : String) (c : Nat) (rest : List (String × Nat)) (e : String),
    (∀ p ∈ done, env.clientStop p.2 = .ok ()) →
    env.clientStop c = .error e →
    stopAllLoop env (done ++ (k, c) :: rest) s =
      ({ s with clients := done.foldl (fun m p => mapDelete m p.1) s.clients },
       done.map (fun p => Event.stopCall p.2) ++ [Event.stopCall c], some e) := by
  induction done with
  | nil =>
      intro s k c rest e _ hc
      simp [stopAllLoop, hc]
  | cons p dtail ih =>
      intro s k c rest e h hc
      have hp : env.clientStop p.2 = .ok () := h p (by simp)
      have htail : ∀ q ∈ dtail, env.clientStop q.2 = .ok () :=
        fun q hq => h q (by simp [hq])
      rcases p with ⟨k0, c0⟩
      simp only [List.cons_append, stopAllLoop, hp]
      have hrec := ih { s with clients := mapDelete s.clients k0 } k c rest e htail hc
      simp only [List.append_eq] at hrec ⊢
      rw [hrec]
      simp

/-- Deleting, in order, the key of every entry of an association list from
that same list leaves it empty. -/
theorem foldl_mapDelete_self_aux {α : Type} (l : List (String × α)) :
    ∀ m : List (String × α), (∀ p ∈ m, ∃ q ∈ l, p.1 = q.1) →
    l.foldl (fun acc p => mapDelete acc p.1) m = [] := by
  induction l with
  | nil =>
      intro m hm
      rcases m with _ | ⟨p, m'⟩
      · rfl
      · exact absurd (hm p (by simp)) (by simp)
  | cons q l' ih =>
      intro m hm
      simp only [List.foldl_cons]
      refine ih (mapDelete m q.1) ?_
      intro p hp
      have hpm : p ∈ m ∧ p.1 ≠ q.1 := by
        simpa [mapDelete, List.mem_filter] using hp
      rcases hm p hpm.1 with ⟨q', hq', heq⟩
      rcases List.mem_cons.1 hq' with h | h
      · exact absurd (h ▸ heq) hpm.2
      · exact ⟨q', h, heq⟩

theorem foldl_mapDelete_self {α : Type} (l : List (String × α)) :
    l.foldl (fun acc p => mapDelete acc p.1) l = [] :=
  foldl_mapDelete_self_aux l l (fun p hp => ⟨p, hp, rfl⟩)

/-- Behaviour of `stopAll` when every stop handshake resolves: each registered entry is
stopped once in table order, then the tables are emptied and every watcher of
every key is disposed. -/
theorem stopAll_ok (env : Env) (s : ManagerState)
    (h : ∀ p ∈ s.clients, env.clientStop p.2 = .ok ()) :
    stopAll env s =
      ⟨⟨[], [], [], s.pendingStarts, s.nextCacheId⟩,
       Event.log "Stopping all language servers..." ::
         (s.clients.map (fun p => Event.stopCall p.2) ++
          (s.watchers.map (fun kw => kw.2.map Event.disposed)).flatten), none⟩ := by
  have hloop := stopAllLoop_ok env s.clients s h
  rw [foldl_mapDelete_self] at hloop
  simp [stopAll, hloop, cleanupAllWatchers]

/-- Behaviour of `stopAll` when a stop handshake rejects part-way: the already-visited
prefix was deregistered, the clearing of caches and disposal of watchers never
runs, and the exception propagates. -/
theorem stopAll_abort (env : Env) (s : ManagerState)
    (done : List (String × Nat)) (k : String) (c : Nat)
    (rest : List (String × Nat)) (e : String)
    (hsplit : s.clients = done ++ (k, c) :: rest)
    (hdone : ∀ p ∈ done, env.clientStop p.2 = .ok ())
    (hc : env.clientStop c = .error e) :
    stopAll env s =
      ⟨⟨done.foldl (fun m p => mapDelete m p.1) s.clients,
        s.diagnosticCaches, s.watchers, s.pendingStarts, s.nextCacheId⟩,
       Event.log "Stopping all language servers..." ::
         (done.map (fun p => Event.stopCall p.2) ++ [Event.stopCall c]), some e⟩ := by
  have hloop := stopAllLoop_abort env done s k c rest e hdone hc
  simp only [stopAll]
  rw [hsplit, hloop]
  simp [hsplit]

theorem mapHas_false_iff {α : Type} (m : List (String × α)) (k : String) :
    mapHas m k = false ↔ mapGet m k = none := by
  cases h : mapGet m k <;> simp [mapHas, h]

/-- The guard set after a full `startForFolder` call is exactly what it was
before the call: the key is removed when the attempt concludes, whether it
succeeded or failed. -/
theorem startForFolder_pendingStarts (env : Env) (f : Folder) (s : ManagerState)
    (hkc : mapHas s.clients (getFolderKey f) = false)
    (hkp : getFolderKey f ∉ s.pendingStarts) :
    (startForFolder env f s).state.pendingStarts = s.pendingStarts := by
  rw [startForFolder_run env f s hkc hkp]
  rcases hb : startTryBody env f (startGuardState s (getFolderKey f)) with ⟨s', tr, r⟩
  have hp : s'.pendingStarts = getFolderKey f :: s.pendingStarts := by
    have := startTryBody_pendingStarts env f (startGuardState s (getFolderKey f))
    rw [hb] at this
    exact this
  rcases r with _ | e
  · simp [startSettle, hp, List.erase_cons_head]
  · rw [startSettle_fail_state]
    simp [hp, List.erase_cons_head]

/-! ### Concrete witness data -/

/-- A concrete workspace folder used by the witnesses. -/
def folderA : Folder := ⟨"file:///ws/app", "app"⟩

/-- A second, distinct workspace folder. -/
def folderB : Folder := ⟨"file:///ws/lib", "lib"⟩

/-- A supported-language document owned by `folderA`. -/
def docA : Document := ⟨"file:///ws/app/main.rb", "ruby"⟩

/-- The empty manager state (a freshly constructed manager). -/
def s0 : ManagerState := ⟨[], [], [], [], 0⟩

/-- A fully cooperative environment: enabled, the factory yields client `7`,
every handshake and notification resolves, one visible document in `folderA`. -/
def envOK : Env :=
  ⟨fun _ => .ok true, fun _ => .ok (some 7), fun _ => .ok (), fun _ => .ok (),
   fun _ _ => .ok (), fun _ _ => .ok (), [docA],
   (fun u => if u = "file:///ws/app/main.rb" then some folderA else none),
   (fun l => l == "ruby")⟩

/-! ### Claim theorems -/

/-- C1: `startForFolder` is idempotent and single-flight.  The key enters the
guard set synchronously (before the try block consults any collaborator) and
the try block never removes it, so any concurrent call observing an
intermediate state of the attempt sees the guard and returns immediately with
no collaborator invocation and no state change; the same holds for a second
sequential call after success, so across a double call the factory runs
exactly once and exactly one Connection ends up registered for the key; and
the guard is removed exactly when the attempt concludes, success or failure. -/
theorem claim_C1_start_idempotent_single_flight
    (env : Env) (f : Folder) (s : ManagerState) (c : Nat)
    (hkc : mapHas s.clients (getFolderKey f) = false)
    (hkp : getFolderKey f ∉ s.pendingStarts)
    (hEn : env.shouldEnableForFolder f = .ok true)
    (hCr : env.createClient f = .ok (some c))
    (hSt : env.clientStart c = .ok ())
    (hSync : (syncOpenDocumentsLoop env c (getFolderKey f) env.textDocuments).2 = none) :
    getFolderKey f ∈ (startGuardState s (getFolderKey f)).pendingStarts ∧
    (∀ (env' : Env) (s'' : ManagerState),
      (startTryBody env' f s'').1.pendingStarts = s''.pendingStarts) ∧
    (∀ s' : ManagerState, getFolderKey f ∈ s'.pendingStarts →
      startForFolder env f s' = ⟨s', [], none⟩) ∧
    (∀ env' : Env, (startForFolder env' f s).state.pendingStarts = s.pendingStarts) ∧
    startForFolder env f (startForFolder env f s).state =
      ⟨(startForFolder env f s).state, [], none⟩ ∧
    ((startForFolder env f s).trace ++
      (startForFolder env f (startForFolder env f s).state).trace).countP isFactoryCall = 1 ∧
    mapGet (startForFolder env f s).state.clients (getFolderKey f) = some c := by
  have hS := startForFolder_success env f s c hkc hkp hEn hCr hSt hSync
  have hreg : mapGet (startForFolder env f s).state.clients (getFolderKey f) = some c := by
    rw [hS]
    exact mapGet_mapSet_self _ _ _
  have hsecond : startForFolder env f (startForFolder env f s).state =
      ⟨(startForFolder env f s).state, [], none⟩ := by
    apply startForFolder_registered
    simp [mapHas, hreg]
  refine ⟨by simp [startGuardState], fun env' s'' => startTryBody_pendingStarts env' f s'',
    fun s' h => startForFolder_inflight env f s' h,
    fun env' => startForFolder_pendingStarts env' f s hkc hkp, hsecond, ?_, hreg⟩
  rw [hsecond, hS]
  simp [isFactoryCall, List.countP_cons, List.countP_append, List.countP_map,
    Function.comp]

/-- C1 witness: in the cooperative environment, from the empty state, the
double call registers client 7 once and the second call is an exact no-op. -/
theorem claim_C1_witness :
    mapGet (startForFolder envOK folderA s0).state.clients (getFolderKey folderA) = some 7 ∧
    startForFolder envOK folderA (startForFolder envOK folderA s0).state =
      ⟨(startForFolder envOK folderA s0).state, [], none⟩ ∧
    ((startForFolder envOK folderA s0).trace ++
      (startForFolder envOK folderA (startForFolder envOK folderA s0).state).trace).countP
        isFactoryCall = 1 := by
  have h := claim_C1_start_idempotent_single_flight envOK folderA s0 7
    (by decide) (by simp [s0]) rfl rfl rfl (by decide)
  exact ⟨h.2.2.2.2.2.2, h.2.2.2.2.1, h.2.2.2.2.2.1⟩

/-- Disposal events are never error callbacks. -/
theorem disposalTrace_countP_errCallback (s : ManagerState) (key : String) :
    (disposalTrace s key).countP isErrCallback = 0 := by
  rw [List.countP_eq_zero]
  intro ev hev
  rcases hw : mapGet s.watchers key with _ | ws <;> simp [disposalTrace, hw] at hev
  rcases hev with ⟨w, _, rfl⟩
  simp [isErrCallback]

/-- C2: the three collaborator-driven outcomes of a guarded start attempt.
Declined enablement logs and returns with no factory call, no registration and
no error callback; a null factory result is a silent no-op; a produced
Connection is registered under the key before the handshake phase runs, and on
full success the key's DiagnosticCache is replaced by a fresh empty instance,
an open notification is replayed for exactly the visible supported documents
owned by this key, and the status-refresh callback fires. -/
theorem claim_C2_start_branches (env : Env) (f : Folder) (s : ManagerState)
    (hkc : mapHas s.clients (getFolderKey f) = false)
    (hkp : getFolderKey f ∉ s.pendingStarts) :
    (env.shouldEnableForFolder f = .ok false →
      startForFolder env f s =
        ⟨s, [Event.enableCheck (getFolderKey f),
             Event.log ("Skipping workspace folder \"" ++ f.name ++
               "\" - extension disabled or not applicable")], none⟩) ∧
    (env.shouldEnableForFolder f = .ok true → env.createClient f = .ok none →
      startForFolder env f s =
        ⟨s, [Event.enableCheck (getFolderKey f), Event.factoryCall (getFolderKey f)],
         none⟩) ∧
    (∀ c, env.shouldEnableForFolder f = .ok true → env.createClient f = .ok (some c) →
      env.clientStart c = .ok () →
      (syncOpenDocumentsLoop env c (getFolderKey f) env.textDocuments).2 = none →
      mapGet (registerClient (startGuardState s (getFolderKey f)) (getFolderKey f) c).clients
          (getFolderKey f) = some c ∧
      startTryBody env f (startGuardState s (getFolderKey f)) =
        ((startHandshakePhase env f c
            (registerClient (startGuardState s (getFolderKey f)) (getFolderKey f) c)).1,
         Event.enableCheck (getFolderKey f) :: Event.factoryCall (getFolderKey f) ::
           (startHandshakePhase env f c
             (registerClient (startGuardState s (getFolderKey f)) (getFolderKey f) c)).2.1,
         (startHandshakePhase env f c
           (registerClient (startGuardState s (getFolderKey f)) (getFolderKey f) c)).2.2) ∧
      startForFolder env f s =
        ⟨⟨mapSet s.clients (getFolderKey f) c,
          mapSet s.diagnosticCaches (getFolderKey f) ⟨s.nextCacheId, []⟩,
          s.watchers, s.pendingStarts, s.nextCacheId + 1⟩,
         Event.enableCheck (getFolderKey f) :: Event.factoryCall (getFolderKey f) ::
           Event.startCall c ::
           ((env.textDocuments.filter (syncDocMatches env (getFolderKey f))).map
               (fun d => Event.openNotify c d.uri) ++
            [Event.statusUpdate,
             Event.log ("Language server started for \"" ++ f.name ++ "\"")]),
         none⟩) := by
  refine ⟨?_, ?_, ?_⟩
  · intro hEn
    rw [startForFolder_run env f s hkc hkp]
    simp [startTryBody, hEn, startSettle, startGuardState, List.erase_cons_head]
  · intro hEn hCr
    rw [startForFolder_run env f s hkc hkp]
    simp [startTryBody, hEn, hCr, startSettle, startGuardState, List.erase_cons_head]
  · intro c hEn hCr hSt hSync
    refine ⟨mapGet_mapSet_self _ _ _, ?_,
      startForFolder_success env f s c hkc hkp hEn hCr hSt hSync⟩
    simp only [startTryBody, hEn, hCr]

/-- A declined environment (enablement predicate reports false). -/
def envDecl : Env :=
  ⟨fun _ => .ok false, fun _ => .ok (some 7), fun _ => .ok (), fun _ => .ok (),
   fun _ _ => .ok (), fun _ _ => .ok (), [docA],
   (fun u => if u = "file:///ws/app/main.rb" then some folderA else none),
   (fun l => l == "ruby")⟩

/-- An environment whose factory legitimately resolves to no client. -/
def envNull : Env :=
  ⟨fun _ => .ok true, fun _ => .ok none, fun _ => .ok (), fun _ => .ok (),
   fun _ _ => .ok (), fun _ _ => .ok (), [docA],
   (fun u => if u = "file:///ws/app/main.rb" then some folderA else none),
   (fun l => l == "ruby")⟩

/-- C2 witness: the declined, null-factory and full-success branches evaluated
at concrete inputs. -/
theorem claim_C2_witness :
    startForFolder envDecl folderA s0 =
      ⟨s0, [Event.enableCheck (getFolderKey folderA),
            Event.log ("Skipping workspace folder \"" ++ folderA.name ++
              "\" - extension disabled or not applicable")], none⟩ ∧
    startForFolder envNull folderA s0 =
      ⟨s0, [Event.enableCheck (getFolderKey folderA), Event.factoryCall (getFolderKey folderA)],
       none⟩ ∧
    startForFolder envOK folderA s0 =
      ⟨⟨mapSet s0.clients (getFolderKey folderA) 7,
        mapSet s0.diagnosticCaches (getFolderKey folderA) ⟨s0.nextCacheId, []⟩,
        s0.watchers, s0.pendingStarts, s0.nextCacheId + 1⟩,
       Event.enableCheck (getFolderKey folderA) :: Event.factoryCall (getFolderKey folderA) ::
         Event.startCall 7 ::
         ((envOK.textDocuments.filter (syncDocMatches envOK (getFolderKey folderA))).map
             (fun d => Event.openNotify 7 d.uri) ++
          [Event.statusUpdate,
           Event.log ("Language server started for \"" ++ folderA.name ++ "\"")]),
       none⟩ := by
  refine ⟨(claim_C2_start_branches envDecl folderA s0 (by decide) (by simp [s0])).1 rfl,
    (claim_C2_start_branches envNull folderA s0 (by decide) (by simp [s0])).2.1 rfl rfl,
    ((claim_C2_start_branches envOK folderA s0 (by decide) (by simp [s0])).2.2 7
      rfl rfl rfl (by decide)).2.2⟩

/-- C3: when the guarded attempt throws (enablement check, factory, handshake
or replay), the failing key's registration is rolled back to exactly the
pre-attempt table, its WatcherSet is disposed and removed, the error callback
fires exactly once with a message containing the folder's display name, no
other key's state is touched, and the call resolves normally instead of
rejecting. -/
theorem claim_C3_start_failure_rollback (env : Env) (f : Folder) (s : ManagerState)
    (s' : ManagerState) (tr : List Event) (e : String)
    (hkc : mapHas s.clients (getFolderKey f) = false)
    (hkp : getFolderKey f ∉ s.pendingStarts)
    (hbody : startTryBody env f (startGuardState s (getFolderKey f)) = (s', tr, some e))
    (hcb : env.onErrorCb
      ("Failed to start Standard Ruby Language Server for \"" ++ f.name ++ "\"") f = .ok ()) :
    (startForFolder env f s).err = none ∧
    (startForFolder env f s).state.clients = s.clients ∧
    (startForFolder env f s).state.watchers = mapDelete s.watchers (getFolderKey f) ∧
    (∀ ws, mapGet s.watchers (getFolderKey f) = some ws →
      ∀ w ∈ ws, Event.disposed w ∈ (startForFolder env f s).trace) ∧
    (startForFolder env f s).trace.countP isErrCallback = 1 ∧
    Event.errCallback ("Failed to start Standard Ruby Language Server for \"" ++
      f.name ++ "\"") (getFolderKey f) ∈ (startForFolder env f s).trace ∧
    (∃ p q, ("Failed to start Standard Ruby Language Server for \"" ++ f.name ++ "\"")
      = p ++ f.name ++ q) ∧
    (∀ k', k' ≠ getFolderKey f →
      mapGet (startForFolder env f s).state.clients k' = mapGet s.clients k' ∧
      mapGet (startForFolder env f s).state.diagnosticCaches k' =
        mapGet s.diagnosticCaches k' ∧
      mapGet (startForFolder env f s).state.watchers k' = mapGet s.watchers k') ∧
    (startForFolder env f s).state.pendingStarts = s.pendingStarts := by
  have hrun := startForFolder_run env f s hkc hkp
  rw [hbody] at hrun
  have hget0 : mapGet s.clients (getFolderKey f) = none := (mapHas_false_iff _ _).1 hkc
  have hw : s'.watchers = s.watchers := by
    have := startTryBody_watchers env f (startGuardState s (getFolderKey f))
    rw [hbody] at this
    exact this
  have hcl : s'.clients = s.clients ∨
      ∃ c, s'.clients = mapSet s.clients (getFolderKey f) c := by
    have := startTryBody_clients env f (startGuardState s (getFolderKey f))
    rw [hbody] at this
    exact this
  have hclients : (startForFolder env f s).state.clients = s.clients := by
    rw [hrun, startSettle_fail_state]
    rcases hcl with h | ⟨c, h⟩
    · simp only [h]
      exact mapDelete_absent _ _ hget0
    · simp only [h]
      exact mapDelete_mapSet_absent _ _ _ hget0
  have htrace := startSettle_fail_trace env f (getFolderKey f) s' tr e
  have htr0 : (startTryBody env f (startGuardState s (getFolderKey f))).2.1 = tr := by
    rw [hbody]
  refine ⟨by rw [hrun]; exact startSettle_fail_err env f _ s' tr e hcb,
    hclients, ?_, ?_, ?_, ?_,
    ⟨"Failed to start Standard Ruby Language Server for \"", "\"", rfl⟩, ?_, ?_⟩
  · rw [hrun, startSettle_fail_state]
    simp [hw]
  · intro ws hws w hwmem
    rw [hrun, htrace]
    have hdt : disposalTrace s' (getFolderKey f) = ws.map Event.disposed := by
      simp [disposalTrace, hw, hws]
    have hmem : Event.disposed w ∈ disposalTrace s' (getFolderKey f) := by
      rw [hdt]
      exact List.mem_map_of_mem _ hwmem
    simp [hmem]
  · rw [hrun, htrace]
    have h1 : tr.countP isErrCallback = 0 := by
      rw [← htr0]
      exact startTryBody_no_errCallback env f (startGuardState s (getFolderKey f))
    simp [List.countP_append, h1, disposalTrace_countP_errCallback, List.countP_cons,
      isErrCallback]
  · rw [hrun, htrace]
    simp
  · intro k' hk'
    have hcne := startTryBody_caches_ne env f (startGuardState s (getFolderKey f)) k' hk'
    rw [hbody] at hcne
    refine ⟨?_, ?_, ?_⟩
    · rw [hclients]
    · rw [hrun, startSettle_fail_state]
      exact hcne
    · rw [hrun, startSettle_fail_state]
      simp only [hw]
      exact mapGet_mapDelete_ne _ _ _ hk'
  · exact startForFolder_pendingStarts env f s hkc hkp

/-- An environment whose factory rejects. -/
def envFail : Env :=
  ⟨fun _ => .ok true, fun _ => .error "boom", fun _ => .ok (), fun _ => .ok (),
   fun _ _ => .ok (), fun _ _ => .ok (), [docA],
   (fun u => if u = "file:///ws/app/main.rb" then some folderA else none),
   (fun l => l == "ruby")⟩

/-- A state with a WatcherSet pre-registered for `folderA` and nothing else. -/
def sW : ManagerState := ⟨[], [], [("file:///ws/app", [3])], [], 0⟩

/-- C3 witness: a rejecting factory with a pre-registered watcher: the call
resolves, the table stays empty, watcher 3 is disposed, and the error
callback fires exactly once. -/
theorem claim_C3_witness :
    (startForFolder envFail folderA sW).err = none ∧
    (startForFolder envFail folderA sW).state.clients = sW.clients ∧
    (Event.disposed 3 ∈ (startForFolder envFail folderA sW).trace) ∧
    (startForFolder envFail folderA sW).trace.countP isErrCallback = 1 := by
  have h := claim_C3_start_failure_rollback envFail folderA sW
    (startGuardState sW (getFolderKey folderA))
    [Event.enableCheck (getFolderKey folderA), Event.factoryCall (getFolderKey folderA)]
    "boom" (by decide) (by simp [sW]) (by decide) rfl
  exact ⟨h.1, h.2.1, h.2.2.2.1 [3] (by decide) 3 (by decide), h.2.2.2.2.1⟩

/-- C10: the failure cleanup is a frame on the cache registry: it touches only
the failing key's Connection entry and WatcherSet, so the cache registry after
the failed call is verbatim the registry at the moment of failure and any
entry present for the key survives intact — unlike `stopForFolder`, which
deletes the key's cache. -/
theorem claim_C10_failure_frame (env : Env) (f : Folder) (s : ManagerState)
    (s' : ManagerState) (tr : List Event) (e : String)
    (hkc : mapHas s.clients (getFolderKey f) = false)
    (hkp : getFolderKey f ∉ s.pendingStarts)
    (hbody : startTryBody env f (startGuardState s (getFolderKey f)) = (s', tr, some e)) :
    (startForFolder env f s).state.diagnosticCaches = s'.diagnosticCaches ∧
    (∀ cache, mapGet s'.diagnosticCaches (getFolderKey f) = some cache →
      mapGet (startForFolder env f s).state.diagnosticCaches (getFolderKey f) = some cache) ∧
    (startForFolder env f s).state.clients = mapDelete s'.clients (getFolderKey f) ∧
    (startForFolder env f s).state.watchers = mapDelete s'.watchers (getFolderKey f) ∧
    (∀ (s2 : ManagerState) (c : Nat), mapGet s2.clients (getFolderKey f) = some c →
      env.clientStop c = .ok () →
      mapGet (stopForFolder env f s2).state.diagnosticCaches (getFolderKey f) = none) := by
  have hrun := startForFolder_run env f s hkc hkp
  rw [hbody] at hrun
  have hcaches : (startForFolder env f s).state.diagnosticCaches = s'.diagnosticCaches := by
    rw [hrun, startSettle_fail_state]
  refine ⟨hcaches, fun cache hc => by rw [hcaches]; exact hc, ?_, ?_, ?_⟩
  · rw [hrun, startSettle_fail_state]
  · rw [hrun, startSettle_fail_state]
  · intro s2 c hc hstop
    rw [stopForFolder_ok env f s2 c hc hstop]
    exact mapGet_mapDelete_self _ _

/-- A state holding a pre-created diagnostic cache for `folderA` with one
entry, as `getDiagnosticCacheForFolder` can create before a start attempt. -/
def sC : ManagerState := ⟨[], [("file:///ws/app", ⟨5, [("file:///ws/app/main.rb", [1, 2])]⟩)], [], [], 6⟩

/-- C10 witness: after the rejecting factory's failed start from a state with
a pre-created cache, the cache entry and its contents survive. -/
theorem claim_C10_witness :
    mapGet (startForFolder envFail folderA sC).state.diagnosticCaches
      (getFolderKey folderA) = some ⟨5, [("file:///ws/app/main.rb", [1, 2])]⟩ := by
  have h := claim_C10_failure_frame envFail folderA sC
    (startGuardState sC (getFolderKey folderA))
    [Event.enableCheck (getFolderKey folderA), Event.factoryCall (getFolderKey folderA)]
    "boom" (by decide) (by simp [sC]) (by decide)
  exact h.2.1 ⟨5, [("file:///ws/app/main.rb", [1, 2])]⟩ (by decide)

theorem mapGet_mem {α : Type} (m : List (String × α)) (k : String) (v : α)
    (h : mapGet m k = some v) : (k, v) ∈ m := by
  induction m with
  | nil => simp [mapGet] at h
  | cons p rest ih =>
      rcases p with ⟨pk, pv⟩
      by_cases hp : pk = k
      · have hv : pv = v := by
          simp only [mapGet, if_pos hp] at h
          exact Option.some.inj h
        subst hv
        subst hp
        exact List.mem_cons_self _ _
      · simp only [mapGet, if_neg hp] at h
        exact List.mem_cons_of_mem _ (ih h)

/-- Every disposal-trace event is a disposal. -/
theorem disposalTrace_events (s : ManagerState) (key : String) :
    ∀ ev ∈ disposalTrace s key, ∃ w, ev = Event.disposed w := by
  intro ev hev
  rcases hw : mapGet s.watchers key with _ | ws
  · simp [disposalTrace, hw] at hev
  · simp [disposalTrace, hw] at hev
    rcases hev with ⟨w, _, rfl⟩
    exact ⟨w, rfl⟩

/-- C5: `stopForFolder` is idempotent — a no-op when no Connection is
registered — and on a resolving stop handshake it removes the key's
registration, deletes its DiagnosticCache, disposes and removes its
WatcherSet, so a subsequent `getDiagnosticCacheForFolder` returns a newly
created empty cache distinct from the instance that existed before. -/
theorem claim_C5_stop_idempotent_clears (env : Env) (f : Folder) (s : ManagerState) :
    (mapGet s.clients (getFolderKey f) = none → stopForFolder env f s = ⟨s, [], none⟩) ∧
    (∀ c, mapGet s.clients (getFolderKey f) = some c → env.clientStop c = .ok () →
      (∀ p ∈ s.diagnosticCaches, p.2.id < s.nextCacheId) →
      (stopForFolder env f s).err = none ∧
      mapGet (stopForFolder env f s).state.clients (getFolderKey f) = none ∧
      mapGet (stopForFolder env f s).state.diagnosticCaches (getFolderKey f) = none ∧
      mapGet (stopForFolder env f s).state.watchers (getFolderKey f) = none ∧
      (∀ ws, mapGet s.watchers (getFolderKey f) = some ws →
        ∀ w ∈ ws, Event.disposed w ∈ (stopForFolder env f s).trace) ∧
      (getDiagnosticCacheForFolder (stopForFolder env f s).state f).1.entries = [] ∧
      (∀ old, mapGet s.diagnosticCaches (getFolderKey f) = some old →
        (getDiagnosticCacheForFolder (stopForFolder env f s).state f).1.id ≠ old.id)) := by
  refine ⟨fun h => stopForFolder_absent env f s h, ?_⟩
  intro c hc hstop hfresh
  have hok := stopForFolder_ok env f s c hc hstop
  have hnone : mapGet (stopForFolder env f s).state.diagnosticCaches (getFolderKey f) = none := by
    rw [hok]
    exact mapGet_mapDelete_self _ _
  have hgd : (getDiagnosticCacheForFolder (stopForFolder env f s).state f).1 =
      ⟨(stopForFolder env f s).state.nextCacheId, []⟩ := by
    simp [getDiagnosticCacheForFolder, hnone]
  refine ⟨by rw [hok], by rw [hok]; exact mapGet_mapDelete_self _ _, hnone,
    by rw [hok]; exact mapGet_mapDelete_self _ _, ?_, by rw [hgd], ?_⟩
  · intro ws hws w hwmem
    rw [hok]
    have hdt : disposalTrace s (getFolderKey f) = ws.map Event.disposed := by
      simp [disposalTrace, hws]
    simpa [hdt] using hwmem
  · intro old hold
    rw [hgd]
    have hmem := mapGet_mem _ _ _ hold
    have hlt : old.id < s.nextCacheId := hfresh (_, old) hmem
    have hnc : (stopForFolder env f s).state.nextCacheId = s.nextCacheId := by rw [hok]
    rw [hnc]
    exact fun hcontr => absurd (hcontr ▸ hlt) (lt_irrefl _)

/-- A state with a registered client 7, a cache instance (id 0) holding one
entry, and one watcher for `folderA`. -/
def sFull : ManagerState :=
  ⟨[("file:///ws/app", 7)],
   [("file:///ws/app", ⟨0, [("file:///ws/app/main.rb", [4])]⟩)],
   [("file:///ws/app", [3])], [], 1⟩

/-- C5 witness: stopping `folderA` in `sFull` clears all three tables for the
key, disposes watcher 3, and the re-created cache is empty with a fresh
identity. -/
theorem claim_C5_witness :
    (stopForFolder envOK folderA sFull).err = none ∧
    mapGet (stopForFolder envOK folderA sFull).state.clients (getFolderKey folderA) = none ∧
    mapGet (stopForFolder envOK folderA sFull).state.diagnosticCaches
      (getFolderKey folderA) = none ∧
    (Event.disposed 3 ∈ (stopForFolder envOK folderA sFull).trace) ∧
    (getDiagnosticCacheForFolder (stopForFolder envOK folderA sFull).state folderA).1.entries
      = [] ∧
    (getDiagnosticCacheForFolder (stopForFolder envOK folderA sFull).state folderA).1.id
      ≠ (⟨0, [("file:///ws/app/main.rb", [4])]⟩ : Cache).id := by
  have h := (claim_C5_stop_idempotent_clears envOK folderA sFull).2 7 rfl rfl (by decide)
  exact ⟨h.1, h.2.1, h.2.2.1, h.2.2.2.2.1 [3] (by decide) 3 (by decide), h.2.2.2.2.2.1,
    h.2.2.2.2.2.2 ⟨0, [("file:///ws/app/main.rb", [4])]⟩ (by decide)⟩

/-- C6: a rejecting stop handshake is not shielded: `stopForFolder` leaves the
Connection entry, DiagnosticCache and WatcherSet untouched and propagates the
exception; inside `stopAll` this aborts the pass part-way — the already
visited prefix is deregistered, the caches are not cleared, no watcher is
disposed, and the rejection propagates. -/
theorem claim_C6_stop_failure_no_cleanup (env : Env) (f : Folder) (s : ManagerState) :
    (∀ c e, mapGet s.clients (getFolderKey f) = some c → env.clientStop c = .error e →
      stopForFolder env f s =
        ⟨s, [Event.log ("Stopping language server for \"" ++ f.name ++ "\"..."),
             Event.stopCall c], some e⟩) ∧
    (∀ (done : List (String × Nat)) (k : String) (c : Nat)
        (rest : List (String × Nat)) (e : String),
      s.clients = done ++ (k, c) :: rest →
      (∀ p ∈ done, env.clientStop p.2 = .ok ()) →
      env.clientStop c = .error e →
      (stopAll env s).err = some e ∧
      (stopAll env s).state.diagnosticCaches = s.diagnosticCaches ∧
      (stopAll env s).state.watchers = s.watchers ∧
      (stopAll env s).trace = Event.log "Stopping all language servers..." ::
        (done.map (fun p => Event.stopCall p.2) ++ [Event.stopCall c]) ∧
      (stopAll env s).state.clients =
        done.foldl (fun m p => mapDelete m p.1) s.clients) := by
  refine ⟨fun c e hc hstop => stopForFolder_stopFail env f s c e hc hstop, ?_⟩
  intro done k c rest e hsplit hdone hc
  have h := stopAll_abort env s done k c rest e hsplit hdone hc
  rw [h]
  exact ⟨rfl, rfl, rfl, rfl, rfl⟩

/-- An environment in which client 8's stop handshake rejects while client 7's
resolves. -/
def envStop8 : Env :=
  ⟨fun _ => .ok true, fun _ => .ok (some 7), fun _ => .ok (),
   fun c => if c = 8 then .error "stop boom" else .ok (),
   fun _ _ => .ok (), fun _ _ => .ok (), [docA],
   (fun u => if u = "file:///ws/app/main.rb" then some folderA else none),
   (fun l => l == "ruby")⟩

/-- Two registered clients (7 for `folderA`, 8 for `folderB`), one cache and
one watcher. -/
def sTwo : ManagerState :=
  ⟨[("file:///ws/app", 7), ("file:///ws/lib", 8)],
   [("file:///ws/app", ⟨0, []⟩)], [("file:///ws/app", [3])], [], 1⟩

/-- C6 witness: stopping `folderB` in `sTwo` under `envStop8` leaves all state
untouched and rejects; `stopAll` aborts after deregistering only client 7,
clears no cache and disposes no watcher. -/
theorem claim_C6_witness :
    stopForFolder envStop8 folderB sTwo =
      ⟨sTwo, [Event.log ("Stopping language server for \"" ++ folderB.name ++ "\"..."),
              Event.stopCall 8], some "stop boom"⟩ ∧
    (stopAll envStop8 sTwo).err = some "stop boom" ∧
    (stopAll envStop8 sTwo).state.diagnosticCaches = sTwo.diagnosticCaches ∧
    (stopAll envStop8 sTwo).state.watchers = sTwo.watchers ∧
    (stopAll envStop8 sTwo).trace = Event.log "Stopping all language servers..." ::
      ([("file:///ws/app", 7)].map (fun p => Event.stopCall p.2) ++ [Event.stopCall 8]) := by
  have h1 := (claim_C6_stop_failure_no_cleanup envStop8 folderB sTwo).1 8 "stop boom"
    (by decide) rfl
  have h2 := (claim_C6_stop_failure_no_cleanup envStop8 folderB sTwo).2
    [("file:///ws/app", 7)] "file:///ws/lib" 8 [] "stop boom" (by decide)
    (by intro p hp; rw [List.mem_singleton] at hp; subst hp; rfl) rfl
  exact ⟨h1, h2.1, h2.2.1, h2.2.2.1, h2.2.2.2.1⟩

/-- C7: when every stop handshake resolves, `stopAll` issues one stop per
entry registered at entry time, in table order — as if the key set had been
snapshotted — and afterwards the Connection table is empty, the cache registry
is cleared, and every WatcherSet of every key (clients or not) is disposed
and removed. -/
theorem claim_C7_stopAll_complete (env : Env) (s : ManagerState)
    (h : ∀ p ∈ s.clients, env.clientStop p.2 = .ok ()) :
    stopAll env s =
      ⟨⟨[], [], [], s.pendingStarts, s.nextCacheId⟩,
       Event.log "Stopping all language servers..." ::
         (s.clients.map (fun p => Event.stopCall p.2) ++
          (s.watchers.map (fun kw => kw.2.map Event.disposed)).flatten), none⟩ ∧
    (stopAll env s).state.clients = [] ∧
    (stopAll env s).state.diagnosticCaches = [] ∧
    (stopAll env s).state.watchers = [] ∧
    (∀ kw ∈ s.watchers, ∀ w ∈ kw.2, Event.disposed w ∈ (stopAll env s).trace) := by
  have hok := stopAll_ok env s h
  refine ⟨hok, by rw [hok], by rw [hok], by rw [hok], ?_⟩
  intro kw hkw w hw
  rw [hok]
  simp only [OpResult.trace, List.mem_cons, List.mem_append, List.mem_flatten]
  right
  right
  exact ⟨kw.2.map Event.disposed, List.mem_map_of_mem _ hkw, List.mem_map_of_mem _ hw⟩

/-- Two clients plus a watcher for a key that has no client. -/
def sThree : ManagerState :=
  ⟨[("file:///ws/app", 7), ("file:///ws/lib", 8)],
   [("file:///ws/app", ⟨0, []⟩)], [("file:///ws/other", [4])], [], 1⟩

/-- C7 witness: `stopAll` over `sThree` stops 7 then 8, empties every table
and disposes watcher 4 even though its key has no client. -/
theorem claim_C7_witness :
    stopAll envOK sThree =
      ⟨⟨[], [], [], sThree.pendingStarts, sThree.nextCacheId⟩,
       Event.log "Stopping all language servers..." ::
         (sThree.clients.map (fun p => Event.stopCall p.2) ++
          (sThree.watchers.map (fun kw => kw.2.map Event.disposed)).flatten), none⟩ ∧
    (Event.disposed 4 ∈ (stopAll envOK sThree).trace) := by
  have h := claim_C7_stopAll_complete envOK sThree (fun p _ => rfl)
  exact ⟨h.1, h.2.2.2.2 ("file:///ws/other", [4]) (by decide) 4 (by decide)⟩

/-- C8 counterexample: `registerWatchers` over a key that already holds
watcher 0 replaces the set with no disposal event, and the subsequent cleanup
for the key can only dispose the new set — disposable 0 is left un-disposed,
refuting the claim that `registerWatchers` never leaves the previously
registered disposables un-disposed. -/
theorem claim_C8_counterexample :
    (registerWatchers sW folderA [1]).2 = [] ∧
    (registerWatchers sW folderA [1]).1.watchers = [("file:///ws/app", [1])] ∧
    Event.disposed 3 ∉
      (cleanupWatchers (registerWatchers sW folderA [1]).1 (getFolderKey folderA)).2 := by
  decide

/-- C8 (amended): a key's stored WatcherSet is disposed exactly by the cleanup
paths — `cleanupWatchers` (invoked on stop and on failed-start cleanup)
disposes every stored disposable and removes the key, and a resolving
`stopForFolder` does so for a registered key — while `registerWatchers`
replaces (does not merge) the stored WatcherSet for the key and performs no
disposal, leaving the previously registered disposables un-disposed. -/
theorem claim_C8_watcher_lifecycle_amended (env : Env) (f : Folder) (s : ManagerState) :
    (∀ ws, registerWatchers s f ws =
      ({ s with watchers := mapSet s.watchers (getFolderKey f) ws }, [])) ∧
    (∀ ws, mapGet (registerWatchers s f ws).1.watchers (getFolderKey f) = some ws) ∧
    (∀ ws0, mapGet s.watchers (getFolderKey f) = some ws0 →
      cleanupWatchers s (getFolderKey f) =
        ({ s with watchers := mapDelete s.watchers (getFolderKey f) },
         ws0.map Event.disposed)) ∧
    (∀ c ws0, mapGet s.clients (getFolderKey f) = some c → env.clientStop c = .ok () →
      mapGet s.watchers (getFolderKey f) = some ws0 →
      (∀ w ∈ ws0, Event.disposed w ∈ (stopForFolder env f s).trace) ∧
      mapGet (stopForFolder env f s).state.watchers (getFolderKey f) = none) := by
  refine ⟨fun ws => rfl, fun ws => mapGet_mapSet_self _ _ _,
    fun ws0 h => cleanupWatchers_present s _ ws0 h, ?_⟩
  intro c ws0 hc hstop hws
  have hok := stopForFolder_ok env f s c hc hstop
  constructor
  · intro w hw
    rw [hok]
    have hdt : disposalTrace s (getFolderKey f) = ws0.map Event.disposed := by
      simp [disposalTrace, hws]
    simpa [hdt] using hw
  · rw [hok]
    exact mapGet_mapDelete_self _ _

/-- C8 witness: the cleanup paths evaluated concretely on `sFull` (client 7,
watcher 3). -/
theorem claim_C8_witness :
    mapGet (registerWatchers s0 folderA [9]).1.watchers (getFolderKey folderA) = some [9] ∧
    cleanupWatchers sFull (getFolderKey folderA) =
      ({ sFull with watchers := mapDelete sFull.watchers (getFolderKey folderA) },
       [Event.disposed 3]) ∧
    (Event.disposed 3 ∈ (stopForFolder envOK folderA sFull).trace) := by
  have h := claim_C8_watcher_lifecycle_amended envOK folderA sFull
  exact ⟨(claim_C8_watcher_lifecycle_amended envOK folderA s0).2.1 [9],
    h.2.2.1 [3] (by decide),
    (h.2.2.2 7 [3] rfl rfl (by decide)).1 3 (by decide)⟩

/-- C9: `notifyDocumentOpenIfNeeded` sends exactly one open notification when
the language is supported, the document has a tracked folder, the folder has a
registered client, and the document's URI is not a key of that folder's
diagnostic cache; in every other case it sends none. -/
theorem claim_C9_notify_open (env : Env) (d : Document) (s : ManagerState) :
    (env.supportedLanguage d.languageId = false →
      notifyDocumentOpenIfNeeded env d s = ⟨s, [], none⟩) ∧
    (env.supportedLanguage d.languageId = true → env.getWorkspaceFolder d.uri = none →
      notifyDocumentOpenIfNeeded env d s = ⟨s, [], none⟩) ∧
    (∀ f, env.supportedLanguage d.languageId = true →
      env.getWorkspaceFolder d.uri = some f →
      mapGet s.clients (getFolderKey f) = none →
      notifyDocumentOpenIfNeeded env d s = ⟨s, [], none⟩) ∧
    (∀ f c cache, env.supportedLanguage d.languageId = true →
      env.getWorkspaceFolder d.uri = some f →
      mapGet s.clients (getFolderKey f) = some c →
      mapGet s.diagnosticCaches (getFolderKey f) = some cache →
      (mapGet cache.entries d.uri).isSome = true →
      notifyDocumentOpenIfNeeded env d s = ⟨s, [], none⟩) ∧
    (∀ f c, env.supportedLanguage d.languageId = true →
      env.getWorkspaceFolder d.uri = some f →
      mapGet s.clients (getFolderKey f) = some c →
      mapGet ((getDiagnosticCacheForFolder s f).1.entries) d.uri = none →
      env.sendNotification c d.uri = .ok () →
      notifyDocumentOpenIfNeeded env d s =
        ⟨(getDiagnosticCacheForFolder s f).2, [Event.openNotify c d.uri], none⟩) := by
  refine ⟨?_, ?_, ?_, ?_, ?_⟩
  · intro hsupp
    simp [notifyDocumentOpenIfNeeded, hsupp]
  · intro hsupp hwf
    simp [notifyDocumentOpenIfNeeded, hsupp, hwf]
  · intro f hsupp hwf hc
    simp [notifyDocumentOpenIfNeeded, hsupp, hwf, hc]
  · intro f c cache hsupp hwf hc hcache huri
    have hg : getDiagnosticCacheForFolder s f = (cache, s) := by
      simp [getDiagnosticCacheForFolder, hcache]
    simp [notifyDocumentOpenIfNeeded, hsupp, hwf, hc, hg, huri]
  · intro f c hsupp hwf hc hnone hsend
    rcases hg : getDiagnosticCacheForFolder s f with ⟨cache, s1⟩
    rw [hg] at hnone
    simp only at hnone
    simp [notifyDocumentOpenIfNeeded, hsupp, hwf, hc, hg, hnone, hsend]

/-- State with client 7 for `folderA` and an existing empty cache (id 0). -/
def sNine : ManagerState :=
  ⟨[("file:///ws/app", 7)], [("file:///ws/app", ⟨0, []⟩)], [], [], 1⟩

/-- Like `sNine` but the cache already has an entry for the document. -/
def sNineSeen : ManagerState :=
  ⟨[("file:///ws/app", 7)],
   [("file:///ws/app", ⟨0, [("file:///ws/app/main.rb", [4])]⟩)], [], [], 1⟩

/-- An unsupported-language document in `folderA`. -/
def docTxt : Document := ⟨"file:///ws/app/readme.txt", "plaintext"⟩

/-- A supported document owned by no tracked folder. -/
def docOutside : Document := ⟨"file:///elsewhere/x.rb", "ruby"⟩

/-- C9 witness: one notification when the document is unseen; none when the
cache already has the entry, when the language is unsupported, when no folder
owns the document, or when the folder has no client. -/
theorem claim_C9_witness :
    notifyDocumentOpenIfNeeded envOK docA sNine =
      ⟨(getDiagnosticCacheForFolder sNine folderA).2,
       [Event.openNotify 7 docA.uri], none⟩ ∧
    notifyDocumentOpenIfNeeded envOK docA sNineSeen = ⟨sNineSeen, [], none⟩ ∧
    notifyDocumentOpenIfNeeded envOK docTxt sNine = ⟨sNine, [], none⟩ ∧
    notifyDocumentOpenIfNeeded envOK docOutside sNine = ⟨sNine, [], none⟩ ∧
    notifyDocumentOpenIfNeeded envOK docA s0 = ⟨s0, [], none⟩ := by
  refine ⟨(claim_C9_notify_open envOK docA sNine).2.2.2.2 folderA 7 rfl rfl
      (by decide) (by decide) rfl,
    (claim_C9_notify_open envOK docA sNineSeen).2.2.2.1 folderA 7
      ⟨0, [("file:///ws/app/main.rb", [4])]⟩ rfl rfl (by decide) (by decide) (by decide),
    (claim_C9_notify_open envOK docTxt sNine).1 (by decide),
    (claim_C9_notify_open envOK docOutside sNine).2.1 rfl (by decide),
    (claim_C9_notify_open envOK docA s0).2.2.1 folderA rfl rfl (by decide)⟩

/-- An environment in which the open-notification send rejects: enablement
holds, the factory yields client 7, the start handshake resolves, but the
post-start replay of the visible document throws. -/
def envBadNotify : Env :=
  ⟨fun _ => .ok true, fun _ => .ok (some 7), fun _ => .ok (), fun _ => .ok (),
   fun _ _ => .error "notify boom", fun _ _ => .ok (), [docA],
   (fun u => if u = "file:///ws/app/main.rb" then some folderA else none),
   (fun l => l == "ruby")⟩

/-- C4 counterexample: client 7's start handshake completes successfully
(`startCall 7` was issued and `clientStart 7` resolves), yet after the attempt
the key has no registration and no stop handshake was ever issued — the
rollback discarded a successfully started Connection without stopping it,
leaving it orphaned. -/
theorem claim_C4_orphan_counterexample :
    Event.startCall 7 ∈ (startForFolder envBadNotify folderA s0).trace ∧
    envBadNotify.clientStart 7 = .ok () ∧
    (startForFolder envBadNotify folderA s0).err = none ∧
    mapGet (startForFolder envBadNotify folderA s0).state.clients
      (getFolderKey folderA) = none ∧
    (startForFolder envBadNotify folderA s0).trace.countP isStopCall = 0 := by
  refine ⟨by decide, rfl, by decide, by decide, by decide⟩

/-- C4 (amended): no operation orphans a Connection except the one gap the
counterexample exhibits: if the start handshake for the factory's client
completed and the post-handshake open-notification replay does not throw, the
client ends registered under the key; and `stopForFolder` always issues the
stop handshake for a Connection before removing it.  (When the replay throws,
the rollback removes the successfully started Connection without stopping
it.) -/
theorem claim_C4_no_orphan_amended (env : Env) (f : Folder) :
    (∀ (s : ManagerState) (c : Nat),
      mapHas s.clients (getFolderKey f) = false →
      getFolderKey f ∉ s.pendingStarts →
      Event.startCall c ∈ (startForFolder env f s).trace →
      env.clientStart c = .ok () →
      (syncOpenDocumentsLoop env c (getFolderKey f) env.textDocuments).2 = none →
      mapGet (startForFolder env f s).state.clients (getFolderKey f) = some c) ∧
    (∀ (s : ManagerState) (c : Nat),
      mapGet s.clients (getFolderKey f) = some c → env.clientStop c = .ok () →
      Event.stopCall c ∈ (stopForFolder env f s).trace) := by
  constructor
  · intro s c hkc hkp hmem hSt hSync
    have hrun := startForFolder_run env f s hkc hkp
    rcases hen : env.shouldEnableForFolder f with e | b
    · exfalso
      have hb : startTryBody env f (startGuardState s (getFolderKey f)) =
          (startGuardState s (getFolderKey f),
           [Event.enableCheck (getFolderKey f)], some e) := by
        simp [startTryBody, hen]
      rw [hb] at hrun
      rw [hrun, startSettle_fail_trace] at hmem
      simp at hmem
      rcases disposalTrace_events _ _ _ hmem with ⟨w, hw⟩
      simp at hw
    · rcases b with _ | _
      · have hb : startTryBody env f (startGuardState s (getFolderKey f)) =
            (startGuardState s (getFolderKey f),
             [Event.enableCheck (getFolderKey f),
              Event.log ("Skipping workspace folder \"" ++ f.name ++
                "\" - extension disabled or not applicable")], none) := by
          simp [startTryBody, hen]
        rw [hb] at hrun
        rw [hrun] at hmem
        simp [startSettle] at hmem
      · rcases hcr : env.createClient f with e | oc
        · exfalso
          have hb : startTryBody env f (startGuardState s (getFolderKey f)) =
              (startGuardState s (getFolderKey f),
               [Event.enableCheck (getFolderKey f), Event.factoryCall (getFolderKey f)],
               some e) := by
            simp [startTryBody, hen, hcr]
          rw [hb] at hrun
          rw [hrun, startSettle_fail_trace] at hmem
          simp at hmem
          rcases disposalTrace_events _ _ _ hmem with ⟨w, hw⟩
          simp at hw
        · rcases oc with _ | c'
          · have hb : startTryBody env f (startGuardState s (getFolderKey f)) =
                (startGuardState s (getFolderKey f),
                 [Event.enableCheck (getFolderKey f), Event.factoryCall (getFolderKey f)],
                 none) := by
              simp [startTryBody, hen, hcr]
            rw [hb] at hrun
            rw [hrun] at hmem
            simp [startSettle] at hmem
          · rcases hst' : env.clientStart c' with e' | u'
            · have hb : startTryBody env f (startGuardState s (getFolderKey f)) =
                  (registerClient (startGuardState s (getFolderKey f)) (getFolderKey f) c',
                   [Event.enableCheck (getFolderKey f), Event.factoryCall (getFolderKey f),
                    Event.startCall c'], some e') := by
                simp [startTryBody, startHandshakePhase, hen, hcr, hst']
              rw [hb] at hrun
              rw [hrun, startSettle_fail_trace] at hmem
              simp at hmem
              rcases hmem with rfl | hmem
              · rw [hst'] at hSt
                simp at hSt
              · exfalso
                rcases disposalTrace_events _ _ _ hmem with ⟨w, hw⟩
                simp at hw
            · cases u'
              rcases hle : syncOpenDocumentsLoop env c' (getFolderKey f) env.textDocuments
                with ⟨ltr, le⟩
              have hltre : ∀ ev ∈ ltr, ∃ u, ev = Event.openNotify c' u := by
                intro ev hev
                have := syncOpenDocumentsLoop_events env c' (getFolderKey f)
                  env.textDocuments ev
                rw [hle] at this
                exact this hev
              rcases le with _ | e2
              · have hS := startForFolder_success env f s c' hkc hkp hen hcr hst'
                  (by rw [hle])
                rw [hS] at hmem
                simp at hmem
                subst hmem
                rw [hS]
                exact mapGet_mapSet_self _ _ _
              · have hb : startTryBody env f (startGuardState s (getFolderKey f)) =
                    (⟨mapSet s.clients (getFolderKey f) c',
                      mapSet s.diagnosticCaches (getFolderKey f) ⟨s.nextCacheId, []⟩,
                      s.watchers, getFolderKey f :: s.pendingStarts, s.nextCacheId + 1⟩,
                     Event.enableCheck (getFolderKey f) ::
                       Event.factoryCall (getFolderKey f) ::
                       Event.startCall c' :: ltr, some e2) := by
                  simp [startTryBody, startHandshakePhase, afterStart, registerClient,
                    startGuardState, hen, hcr, hst', hle]
                rw [hb] at hrun
                rw [hrun, startSettle_fail_trace] at hmem
                simp at hmem
                rcases hmem with rfl | hmem | hmem
                · rw [hle] at hSync
                  simp at hSync
                · exfalso
                  rcases hltre _ hmem with ⟨u, hu⟩
                  simp at hu
                · exfalso
                  rcases disposalTrace_events _ _ _ hmem with ⟨w, hw⟩
                  simp at hw
  · intro s c hc hstop
    rw [stopForFolder_ok env f s c hc hstop]
    simp

/-- C4 witness: in the fully cooperative environment the started client stays
registered, and stopping a registered client issues its stop handshake. -/
theorem claim_C4_witness :
    mapGet (startForFolder envOK folderA s0).state.clients (getFolderKey folderA)
      = some 7 ∧
    Event.stopCall 7 ∈ (stopForFolder envOK folderA sFull).trace := by
  refine ⟨(claim_C4_no_orphan_amended envOK folderA).1 s0 7 (by decide) (by simp [s0])
      (by decide) rfl (by decide),
    (claim_C4_no_orphan_amended envOK folderA).2 sFull 7 rfl rfl⟩

end StandardRuby
